import Mathlib

/-!
Verification of the spring-to-CSS easing generator.

The development shallowly embeds the numerical core of the repository
(src/src/App.js): the Newton-Raphson root finder, the perceptual-to-physical
parameter resolution, the three closed-form damped-oscillator trajectories,
the settlement test, the duration estimator and the curve sampler.
JavaScript numbers are modelled as real numbers; optional object fields are
modelled as Option values (a field is "present" when it is some).
-/

namespace SpringGen

noncomputable section

open Classical

/-- Embeds the source helper clamp(min, max, v) = Math.min(Math.max(v, min), max). -/
def clamp (lo hi v : ℝ) : ℝ := min (max v lo) hi

/-- Embeds millisecondsToSeconds. -/
def millisecondsToSeconds (ms : ℝ) : ℝ := ms / 1000

/-- Embeds secondsToMilliseconds. -/
def secondsToMilliseconds (s : ℝ) : ℝ := s * 1000

/-- The springDefaults table of the source. -/
structure SpringDefaultsT where
  stiffness : ℝ
  damping : ℝ
  mass : ℝ
  velocity : ℝ
  duration : ℝ
  bounce : ℝ
  visualDuration : ℝ
  restSpeedGranular : ℝ
  restSpeedDefault : ℝ
  restDeltaGranular : ℝ
  restDeltaDefault : ℝ
  minDuration : ℝ
  maxDuration : ℝ
  minDamping : ℝ
  maxDamping : ℝ

/-- Embeds the springDefaults constant object. -/
def springDefaults : SpringDefaultsT :=
  ⟨100, 10, 1, 0, 800, 0.3, 0.3, 0.01, 2, 0.005, 0.5, 0.01, 10, 0.05, 1⟩

/-- A caller-supplied options object: each numeric field is present (some) or
absent (none), mirroring the JavaScript object the source receives. -/
structure SpringInput where
  stiffness : Option ℝ
  damping : Option ℝ
  mass : Option ℝ
  duration : Option ℝ
  bounce : Option ℝ
  visualDuration : Option ℝ
  velocity : Option ℝ
  restSpeed : Option ℝ
  restDelta : Option ℝ
  keyframes : List ℝ

/-- Embeds isSpringType(options, physicsKeys): some physics key is present. -/
def isSpringTypePhysics (o : SpringInput) : Bool :=
  o.stiffness.isSome || o.damping.isSome || o.mass.isSome

/-- Embeds isSpringType(options, durationKeys): duration or bounce is present. -/
def isSpringTypeDuration (o : SpringInput) : Bool :=
  o.duration.isSome || o.bounce.isSome

/-- Embeds calcAngularFreq. -/
def calcAngularFreq (undampedFreq dampingRatio : ℝ) : ℝ :=
  undampedFreq * Real.sqrt (1 - dampingRatio * dampingRatio)

/-- The rootIterations constant of the source. -/
def rootIterations : ℕ := 12

/-- One Newton-Raphson update, the body of the loop in approximateRoot. -/
def newtonStep (envelope derivative : ℝ → ℝ) (result : ℝ) : ℝ :=
  result - envelope result / derivative result

/-- Embeds approximateRoot: the loop runs for i = 1 while i < rootIterations,
performing one newtonStep per index. -/
def approximateRoot (envelope derivative : ℝ → ℝ) (initialGuess : ℝ) : ℝ :=
  ((List.range rootIterations).drop 1).foldl
    (fun result _ => newtonStep envelope derivative result) initialGuess

/-- The safeMin constant of the source. -/
def safeMin : ℝ := 0.001

/-- Embeds the envelope closure built inside findSpring (both damping-ratio
branches). -/
def fsEnvelope (dampingRatio duration velocity : ℝ) (undampedFreq : ℝ) : ℝ :=
  if dampingRatio < 1 then
    let exponentialDecay := undampedFreq * dampingRatio
    let delta := exponentialDecay * duration
    let a := exponentialDecay - velocity
    let b := calcAngularFreq undampedFreq dampingRatio
    let c := Real.exp (-delta)
    safeMin - a / b * c
  else
    let a := Real.exp (-undampedFreq * duration)
    let b := (undampedFreq - velocity) * duration + 1
    (-safeMin) + a * b

/-- Embeds the derivative closure built inside findSpring (both damping-ratio
branches), including the sign-correction factor of the oscillatory branch. -/
def fsDerivative (dampingRatio duration velocity : ℝ) (undampedFreq : ℝ) : ℝ :=
  if dampingRatio < 1 then
    let exponentialDecay := undampedFreq * dampingRatio
    let delta := exponentialDecay * duration
    let d := delta * velocity + velocity
    let e := dampingRatio ^ 2 * undampedFreq ^ 2 * duration
    let f := Real.exp (-delta)
    let g := calcAngularFreq (undampedFreq ^ 2) dampingRatio
    let factor : ℝ :=
      if -(fsEnvelope dampingRatio duration velocity undampedFreq) + safeMin > 0
      then -1 else 1
    factor * ((d - e) * f) / g
  else
    let a := Real.exp (-undampedFreq * duration)
    let b := (velocity - undampedFreq) * (duration * duration)
    a * b

/-- The record returned by findSpring. -/
structure FindSpringResult where
  stiffness : ℝ
  damping : ℝ
  duration : ℝ

/-- The tail of findSpring after the Newton-Raphson call: converts the clamped
duration back to milliseconds and either falls back to the default constants
(when the root is NaN, modelled as none) or derives stiffness and damping from
the root. -/
def findSpringCore (dampingRatio duration mass : ℝ) (undampedFreq : Option ℝ) :
    FindSpringResult :=
  let durationMs := secondsToMilliseconds duration
  match undampedFreq with
  | none => ⟨springDefaults.stiffness, springDefaults.damping, durationMs⟩
  | some freq =>
    let stiffness := freq ^ 2 * mass
    ⟨stiffness, dampingRatio * 2 * Real.sqrt (mass * stiffness), durationMs⟩

/-- Embeds findSpring up to the outcome of the Newton-Raphson solve, which is
passed in as root (none models a NaN result, which the real numbers cannot
represent directly). -/
def findSpringWithRoot (o : SpringInput) (root : Option ℝ) : FindSpringResult :=
  let bounce := o.bounce.getD springDefaults.bounce
  let mass := o.mass.getD springDefaults.mass
  let dampingRatio :=
    clamp springDefaults.minDamping springDefaults.maxDamping (1 - bounce)
  let duration :=
    clamp springDefaults.minDuration springDefaults.maxDuration
      (millisecondsToSeconds (o.duration.getD springDefaults.duration))
  findSpringCore dampingRatio duration mass root

/-- Embeds findSpring: runs approximateRoot on the envelope/derivative pair
and feeds the result (always a real number here, NaN being unrepresentable)
into the common tail. -/
def findSpring (o : SpringInput) : FindSpringResult :=
  let bounce := o.bounce.getD springDefaults.bounce
  let velocity := o.velocity.getD springDefaults.velocity
  let dampingRatio :=
    clamp springDefaults.minDamping springDefaults.maxDamping (1 - bounce)
  let duration :=
    clamp springDefaults.minDuration springDefaults.maxDuration
      (millisecondsToSeconds (o.duration.getD springDefaults.duration))
  let initialGuess := 5 / duration
  findSpringWithRoot o
    (some (approximateRoot (fsEnvelope dampingRatio duration velocity)
      (fsDerivative dampingRatio duration velocity) initialGuess))

/-- The record produced by getSpringOptions (the fields spring() destructures). -/
structure ResolvedSpring where
  velocity : ℝ
  stiffness : ℝ
  damping : ℝ
  mass : ℝ
  duration : Option ℝ
  isResolvedFromDuration : Bool

/-- Embeds getSpringOptions: defaults overlaid with the caller's fields, then
the visual-duration shortcut or the duration-based solve when no physics key
is present but a duration key is. -/
def getSpringOptions (o : SpringInput) : ResolvedSpring :=
  let base : ResolvedSpring :=
    ⟨o.velocity.getD springDefaults.velocity,
     o.stiffness.getD springDefaults.stiffness,
     o.damping.getD springDefaults.damping,
     o.mass.getD springDefaults.mass,
     o.duration, false⟩
  if !isSpringTypePhysics o && isSpringTypeDuration o then
    if o.visualDuration.getD 0 ≠ 0 then
      let visualDuration := o.visualDuration.getD 0
      let root := 2 * Real.pi / (visualDuration * 1.2)
      let stiffness := root * root
      let damping := 2 * clamp 0.05 1 (1 - o.bounce.getD 0) * Real.sqrt stiffness
      ⟨base.velocity, stiffness, damping, springDefaults.mass, base.duration, false⟩
    else
      let derived := findSpring o
      ⟨base.velocity, derived.stiffness, derived.damping, springDefaults.mass,
       some derived.duration, true⟩
  else base

/-- Embeds options.keyframes[0] in spring(). -/
def springOrigin (o : SpringInput) : ℝ := o.keyframes.headD 0

/-- Embeds options.keyframes[options.keyframes.length - 1] in spring(). -/
def springTarget (o : SpringInput) : ℝ := o.keyframes.getLastD 0

/-- The ResolvedSpring spring() obtains: getSpringOptions on the caller's
options with velocity replaced by -millisecondsToSeconds(options.velocity or 0). -/
def springResolved (o : SpringInput) : ResolvedSpring :=
  getSpringOptions
    ⟨o.stiffness, o.damping, o.mass, o.duration, o.bounce, o.visualDuration,
     some (-(millisecondsToSeconds (o.velocity.getD 0))), o.restSpeed,
     o.restDelta, o.keyframes⟩

/-- The dampingRatio derived in spring(). -/
def springDampingRatio (o : SpringInput) : ℝ :=
  (springResolved o).damping /
    (2 * Real.sqrt ((springResolved o).stiffness * (springResolved o).mass))

/-- The initialDelta derived in spring(). -/
def springInitialDelta (o : SpringInput) : ℝ := springTarget o - springOrigin o

/-- The undampedAngularFreq derived in spring(). -/
def springUndampedFreq (o : SpringInput) : ℝ :=
  millisecondsToSeconds
    (Real.sqrt ((springResolved o).stiffness / (springResolved o).mass))

/-- The effective restSpeed: a caller value when truthy, otherwise the granular
or default threshold picked by the magnitude of initialDelta. -/
def restSpeedOf (o : SpringInput) : ℝ :=
  if o.restSpeed.getD 0 ≠ 0 then o.restSpeed.getD 0
  else if |springInitialDelta o| < 5 then springDefaults.restSpeedGranular
  else springDefaults.restSpeedDefault

/-- The effective restDelta, selected like restSpeedOf. -/
def restDeltaOf (o : SpringInput) : ℝ :=
  if o.restDelta.getD 0 ≠ 0 then o.restDelta.getD 0
  else if |springInitialDelta o| < 5 then springDefaults.restDeltaGranular
  else springDefaults.restDeltaDefault

/-- Embeds the resolveSpring closure: the three closed-form trajectories,
selected by the damping ratio derived from the arguments. -/
def resolveSpring (stiffness damping mass origin target initialVelocity : ℝ)
    (t : ℝ) : ℝ :=
  let dampingRatio := damping / (2 * Real.sqrt (stiffness * mass))
  let initialDelta := target - origin
  let undampedAngularFreq :=
    millisecondsToSeconds (Real.sqrt (stiffness / mass))
  if dampingRatio < 1 then
    let angularFreq := calcAngularFreq undampedAngularFreq dampingRatio
    let envelope := Real.exp (-dampingRatio * undampedAngularFreq * t)
    target -
      envelope *
        (((initialVelocity + dampingRatio * undampedAngularFreq * initialDelta) /
            angularFreq) * Real.sin (angularFreq * t) +
          initialDelta * Real.cos (angularFreq * t))
  else if dampingRatio = 1 then
    target -
      Real.exp (-undampedAngularFreq * t) *
        (initialDelta + (initialVelocity + undampedAngularFreq * initialDelta) * t)
  else
    let dampedAngularFreq :=
      undampedAngularFreq * Real.sqrt (dampingRatio * dampingRatio - 1)
    let envelope := Real.exp (-dampingRatio * undampedAngularFreq * t)
    let freqForT := min (dampedAngularFreq * t) 300
    target -
      envelope *
          ((initialVelocity + dampingRatio * undampedAngularFreq * initialDelta) *
              Real.sinh freqForT +
            dampedAngularFreq * initialDelta * Real.cosh freqForT) /
        dampedAngularFreq

/-- The trajectory spring() queries: resolveSpring applied to the resolved
constants and the keyframe pair. -/
def springPosition (o : SpringInput) (t : ℝ) : ℝ :=
  resolveSpring (springResolved o).stiffness (springResolved o).damping
    (springResolved o).mass (springOrigin o) (springTarget o)
    (springResolved o).velocity t

/-- Embeds calcGeneratorVelocity. -/
def calcGeneratorVelocity (resolve : ℝ → ℝ) (t current : ℝ) : ℝ :=
  let prevT := max (t - 5) 0
  (current - resolve prevT) / (t - prevT)

/-- The currentVelocity computed in generator.next for the threshold-based
settlement test. -/
def springVelocity (o : SpringInput) (t : ℝ) : ℝ :=
  if springDampingRatio o < 1 then
    if t = 0 then secondsToMilliseconds (springResolved o).velocity
    else calcGeneratorVelocity (springPosition o) t (springPosition o t)
  else if t = 0 then (springResolved o).velocity
  else 0

/-- The done flag generator.next reports at time t: elapsed-time test for
duration-resolved springs, velocity and displacement thresholds otherwise. -/
def springDone (o : SpringInput) (t : ℝ) : Prop :=
  if (springResolved o).isResolvedFromDuration then
    match (springResolved o).duration with
    | some d => t ≥ d
    | none => False
  else
    |springVelocity o t| ≤ restSpeedOf o ∧
      |springTarget o - springPosition o t| ≤ restDeltaOf o

/-- The value generator.next reports at time t: the target once done, the
analytic position otherwise. -/
def springValue (o : SpringInput) (t : ℝ) : ℝ :=
  if springDone o t then springTarget o else springPosition o t

/-- Embeds generateLinearEasing: resolution evenly spaced samples of the
progress-indexed generator function (the duration argument is unused by the
source loop, which works in normalized progress). -/
def generateLinearEasing (generator : ℝ → ℝ) (_duration : ℝ) (resolution : ℕ) :
    List ℝ :=
  (List.range resolution).map fun i : ℕ =>
    generator ((i : ℝ) / ((resolution : ℝ) - 1))

/-- The sample list generator.toString builds for a sampling window of
duration ms: each sample is the reported value at duration times progress. -/
def springSamples (o : SpringInput) (duration : ℝ) : List ℝ :=
  generateLinearEasing (fun progress => springValue o (duration * progress))
    duration 30

/-- The maxGeneratorDuration constant. -/
def maxGeneratorDuration : ℝ := 10000

/-- The loop body of calcGeneratorDuration: steps t in 50ms increments (k
counts steps) until the generator reports done or t reaches the ceiling;
fuel bounds the recursion and is chosen large enough never to run out. -/
def calcGeneratorDurationLoop (o : SpringInput) : ℕ → ℕ → ℕ
  | 0, k => k
  | fuel + 1, k =>
    if (50 * k : ℝ) < maxGeneratorDuration then
      if springDone o (50 * k) then k
      else calcGeneratorDurationLoop o fuel (k + 1)
    else k

/-- Embeds calcGeneratorDuration: the first 50ms multiple at which the
generator reports done, capped at the 10000ms ceiling. -/
def calcGeneratorDuration (o : SpringInput) : ℝ :=
  50 * (calcGeneratorDurationLoop o 201 0 : ℝ)

/-- Embeds generator.toString, with render standing for JavaScript's
number-to-string conversion: the comma-space join of the sampled values
wrapped in a linear(...) literal. -/
def springToString (render : ℝ → String) (o : SpringInput) : String :=
  let calculatedDuration := min (calcGeneratorDuration o) maxGeneratorDuration
  let easing :=
    generateLinearEasing
      (fun progress => springValue o (calculatedDuration * progress))
      calculatedDuration 30
  "linear(" ++ String.intercalate ", " (easing.map render) ++ ")"

/-- The loop of approximateRoot runs for indices 1 to 11, so it applies the
Newton update exactly eleven times. -/
lemma approximateRoot_eq_iterate (envelope derivative : ℝ → ℝ)
    (initialGuess : ℝ) :
    approximateRoot envelope derivative initialGuess =
      (newtonStep envelope derivative)^[11] initialGuess := by
  have hl : (List.range rootIterations).drop 1 = [1, 2, 3, 4, 5, 6, 7, 8, 9, 10, 11] := by
    decide
  rw [approximateRoot, hl]
  simp [Function.iterate_succ_apply, List.foldl]

/-- C1 (counterexample): with constant envelope 1 and constant derivative 1
every Newton update subtracts one, so approximateRoot maps the initial guess 0
to -11; twelve update steps, as the claim states, would give -12. -/
theorem approximateRoot_not_twelve_steps :
    approximateRoot (fun _ => (1 : ℝ)) (fun _ => 1) 0 ≠
      (newtonStep (fun _ => (1 : ℝ)) (fun _ => 1))^[12] 0 := by
  have hstep : ∀ x : ℝ, newtonStep (fun _ => (1 : ℝ)) (fun _ => 1) x = x - 1 := by
    intro x
    simp [newtonStep]
  have hiter : ∀ (n : ℕ) (x : ℝ),
      (newtonStep (fun _ => (1 : ℝ)) (fun _ => 1))^[n] x = x - n := by
    intro n
    induction n with
    | zero => intro x; simp
    | succ k ih =>
      intro x
      rw [Function.iterate_succ_apply, hstep, ih]
      push_cast
      ring
  rw [approximateRoot_eq_iterate, hiter, hiter]
  norm_num

/-- C1 (amended): approximateRoot performs exactly 11 fixed Newton-Raphson
update steps x := x - f(x)/f_derivative(x) starting from initialGuess (the
loop runs for i = 1 to 11), for every function pair and every initial guess;
the iteration count is fixed and never convergence-gated. -/
theorem approximateRoot_eleven_steps (envelope derivative : ℝ → ℝ)
    (initialGuess : ℝ) :
    approximateRoot envelope derivative initialGuess =
      (newtonStep envelope derivative)^[11] initialGuess :=
  approximateRoot_eq_iterate envelope derivative initialGuess

/-- An input carrying only visualDuration: no physics key and no duration key. -/
def oVisualOnly : SpringInput :=
  ⟨none, none, none, none, none, some 0.3, none, none, none, [0, 1]⟩

/-- C2 (counterexample): for the input with visualDuration 0.3 and no other
key, getSpringOptions keeps the default stiffness 100 instead of applying the
closed-form shortcut, because neither duration nor bounce is present. -/
theorem visualDuration_alone_no_shortcut :
    (getSpringOptions oVisualOnly).stiffness ≠
      (2 * Real.pi / (0.3 * 1.2)) * (2 * Real.pi / (0.3 * 1.2)) := by
  have h : (getSpringOptions oVisualOnly).stiffness = 100 := by
    simp [getSpringOptions, oVisualOnly, isSpringTypePhysics,
      isSpringTypeDuration, springDefaults]
  rw [h]
  intro hc
  have h36 : (0.3 : ℝ) * 1.2 = 0.36 := by norm_num
  rw [h36] at hc
  field_simp at hc
  nlinarith [Real.pi_gt_three, sq_nonneg (Real.pi - 3)]

/-- C2 (amended): for every SpringInput with no physics key, with a duration
key (duration or bounce) present, and with visualDuration present and nonzero,
resolution uses the closed-form shortcut: stiffness = (2pi/(visualDuration *
1.2))^2, damping = 2 * clamp(0.05, 1, 1 - bounce) * sqrt(stiffness), mass is
the default, and isResolvedFromDuration = false. -/
theorem visualDuration_shortcut (o : SpringInput) (vd : ℝ)
    (hp : isSpringTypePhysics o = false) (hd : isSpringTypeDuration o = true)
    (hv : o.visualDuration = some vd) (hvz : vd ≠ 0) :
    (getSpringOptions o).stiffness =
        (2 * Real.pi / (vd * 1.2)) * (2 * Real.pi / (vd * 1.2)) ∧
      (getSpringOptions o).damping =
        2 * clamp 0.05 1 (1 - o.bounce.getD 0) *
          Real.sqrt ((2 * Real.pi / (vd * 1.2)) * (2 * Real.pi / (vd * 1.2))) ∧
      (getSpringOptions o).mass = springDefaults.mass ∧
      (getSpringOptions o).isResolvedFromDuration = false := by
  simp [getSpringOptions, hp, hd, hv, hvz]

/-- An input with visualDuration 0.3 and bounce 0.3, the spec's concrete
visual-duration scenario. -/
def oVisualBounce : SpringInput :=
  ⟨none, none, none, none, some 0.3, some 0.3, none, none, none, [0, 1]⟩

/-- C2 (witness): the shortcut hypotheses hold for the input with
visualDuration 0.3 and bounce 0.3, and the resolved stiffness is the
closed-form value. -/
theorem visualDuration_shortcut_witness :
    isSpringTypePhysics oVisualBounce = false ∧
      isSpringTypeDuration oVisualBounce = true ∧
      oVisualBounce.visualDuration = some 0.3 ∧ (0.3 : ℝ) ≠ 0 ∧
      (getSpringOptions oVisualBounce).stiffness =
        (2 * Real.pi / (0.3 * 1.2)) * (2 * Real.pi / (0.3 * 1.2)) :=
  ⟨rfl, rfl, rfl, by norm_num,
    (visualDuration_shortcut oVisualBounce 0.3 rfl rfl rfl (by norm_num)).1⟩

/-- Within its bounds, clamp is the identity. -/
lemma clamp_of_le_of_le {lo hi v : ℝ} (h1 : lo ≤ v) (h2 : v ≤ hi) :
    clamp lo hi v = v := by
  rw [clamp, max_eq_left h1, min_eq_left h2]

/-- The duration findSpringCore reports does not depend on the root outcome. -/
lemma findSpringCore_duration (dampingRatio duration mass : ℝ)
    (root : Option ℝ) :
    (findSpringCore dampingRatio duration mass root).duration =
      secondsToMilliseconds duration := by
  cases root <;> rfl

/-- With a requested duration inside the documented 10ms to 10000ms range,
findSpringWithRoot reports that duration back unchanged. -/
lemma findSpringWithRoot_duration (o : SpringInput) (root : Option ℝ) (d : ℝ)
    (hd : o.duration = some d) (h1 : 10 ≤ d) (h2 : d ≤ 10000) :
    (findSpringWithRoot o root).duration = d := by
  simp only [findSpringWithRoot, findSpringCore_duration, hd, Option.getD_some,
    springDefaults, millisecondsToSeconds, secondsToMilliseconds]
  rw [clamp_of_le_of_le (by linarith) (by linarith)]
  field_simp

/-- The duration findSpring reports for an in-range request. -/
lemma findSpring_duration_eq (o : SpringInput) (d : ℝ)
    (hd : o.duration = some d) (h1 : 10 ≤ d) (h2 : d ≤ 10000) :
    (findSpring o).duration = d := by
  simp only [findSpring]
  exact findSpringWithRoot_duration o _ d hd h1 h2

/-- When no physics key is present, a duration key is, and visualDuration is
absent or zero, getSpringOptions takes the findSpring path. -/
lemma getSpringOptions_durationPath (o : SpringInput)
    (hp : isSpringTypePhysics o = false) (hd : isSpringTypeDuration o = true)
    (hv : o.visualDuration.getD 0 = 0) :
    getSpringOptions o =
      ⟨o.velocity.getD springDefaults.velocity, (findSpring o).stiffness,
       (findSpring o).damping, springDefaults.mass,
       some (findSpring o).duration, true⟩ := by
  simp [getSpringOptions, hp, hd, hv]

/-- C5: whenever the Newton-Raphson result of the duration-based solve is NaN
(the fallback branch, modelled by the none root), the resolver substitutes the
default stiffness 100 and damping 10 while reporting the caller's requested
duration unchanged for every request inside the documented 10ms to 10000ms
range; no error is surfaced, the function is total. -/
theorem findSpring_nan_fallback (o : SpringInput) (d : ℝ)
    (hd : o.duration = some d) (h1 : 10 ≤ d) (h2 : d ≤ 10000) :
    (findSpringWithRoot o none).stiffness = 100 ∧
      (findSpringWithRoot o none).damping = 10 ∧
      (findSpringWithRoot o none).duration = d := by
  refine ⟨?_, ?_, findSpringWithRoot_duration o none d hd h1 h2⟩ <;>
    simp [findSpringWithRoot, findSpringCore, springDefaults]

/-- The spec's duration-based concrete scenario: duration 800, bounce 0.3,
keyframes 0 to 1. -/
def o800 : SpringInput :=
  ⟨none, none, none, some 800, some 0.3, none, none, none, none, [0, 1]⟩

/-- C5 (witness): the fallback result for the duration-800 input. -/
theorem findSpring_nan_fallback_witness :
    o800.duration = some 800 ∧ (10 : ℝ) ≤ 800 ∧ (800 : ℝ) ≤ 10000 ∧
      (findSpringWithRoot o800 none).stiffness = 100 ∧
      (findSpringWithRoot o800 none).damping = 10 ∧
      (findSpringWithRoot o800 none).duration = 800 :=
  ⟨rfl, by norm_num, by norm_num,
    (findSpring_nan_fallback o800 800 rfl (by norm_num) (by norm_num)).1,
    (findSpring_nan_fallback o800 800 rfl (by norm_num) (by norm_num)).2.1,
    (findSpring_nan_fallback o800 800 rfl (by norm_num) (by norm_num)).2.2⟩

/-- The options object spring() hands to getSpringOptions for the duration-800
scenario (velocity injected). -/
def o800i : SpringInput :=
  ⟨none, none, none, some 800, some 0.3, none,
   some (-(millisecondsToSeconds (Option.getD (none : Option ℝ) 0))), none,
   none, [0, 1]⟩

/-- springResolved on the duration-800 scenario unfolds to getSpringOptions on
the velocity-injected object. -/
lemma springResolved_o800 : springResolved o800 = getSpringOptions o800i := rfl

/-- The duration-800 input resolves through the findSpring path. -/
lemma o800_iRFD : (springResolved o800).isResolvedFromDuration = true := by
  rw [springResolved_o800, getSpringOptions_durationPath o800i rfl rfl rfl]

/-- The duration-800 input resolves to a reported duration of 800ms. -/
lemma o800_duration : (springResolved o800).duration = some 800 := by
  rw [springResolved_o800, getSpringOptions_durationPath o800i rfl rfl rfl]
  simp only
  rw [findSpring_duration_eq o800i 800 rfl (by norm_num) (by norm_num)]

/-- C3: for every spring resolved from an explicit duration, evaluation at
time t reports done exactly when t has reached the resolved duration; the
rest-speed and rest-delta thresholds play no part in the condition. -/
theorem durationResolved_done_iff (o : SpringInput) (t d : ℝ)
    (hr : (springResolved o).isResolvedFromDuration = true)
    (hd : (springResolved o).duration = some d) :
    springDone o t ↔ t ≥ d := by
  simp [springDone, hr, hd]

/-- C3 (witness): the concrete scenario duration 800, bounce 0.3, keyframes
0 to 1 resolves from its duration, and done is false at 799ms and true at
800ms. -/
theorem durationResolved_done_iff_witness :
    (springResolved o800).isResolvedFromDuration = true ∧
      (springResolved o800).duration = some 800 ∧
      ¬springDone o800 799 ∧ springDone o800 800 := by
  refine ⟨o800_iRFD, o800_duration, ?_, ?_⟩
  · intro hdone
    have h := (durationResolved_done_iff o800 799 800 o800_iRFD o800_duration).mp hdone
    norm_num at h
  · exact (durationResolved_done_iff o800 800 800 o800_iRFD o800_duration).mpr
      (le_refl 800)

/-- C6 (amended): for every spring resolved from an explicit duration, done is
monotonic in the query time: once done holds at t, it holds at every later
time. For threshold-settled springs this monotonicity fails in general. -/
theorem durationResolved_done_monotonic (o : SpringInput) (t t' : ℝ)
    (hr : (springResolved o).isResolvedFromDuration = true)
    (h : springDone o t) (htt : t ≤ t') : springDone o t' := by
  cases hdur : (springResolved o).duration with
  | none => simp [springDone, hr, hdur] at h
  | some d =>
    simp only [springDone, hr, if_true] at h ⊢
    rw [hdur] at h ⊢
    simp only [ge_iff_le] at h ⊢
    linarith

/-- C6 (witness): monotonic settlement for the duration-800 scenario from
800ms to 900ms. -/
theorem durationResolved_done_monotonic_witness :
    (springResolved o800).isResolvedFromDuration = true ∧
      springDone o800 800 ∧ (800 : ℝ) ≤ 900 ∧ springDone o800 900 := by
  have hdone : springDone o800 800 := by
    simp [springDone, o800_iRFD, o800_duration]
  exact ⟨o800_iRFD, hdone, by norm_num,
    durationResolved_done_monotonic o800 800 900 o800_iRFD hdone (by norm_num)⟩

/-- C10: whenever evaluation reports done, the reported value is exactly the
target: the analytic position is replaced by the target whenever done holds. -/
theorem done_implies_value_target (o : SpringInput) (t : ℝ)
    (h : springDone o t) : springValue o t = springTarget o := by
  rw [springValue, if_pos h]

/-- C10 (witness): the duration-800 scenario at t = 800 reports done and the
reported value equals the target. -/
theorem done_implies_value_target_witness :
    springDone o800 800 ∧ springValue o800 800 = springTarget o800 := by
  have hdone : springDone o800 800 := by
    simp [springDone, o800_iRFD, o800_duration]
  exact ⟨hdone, done_implies_value_target o800 800 hdone⟩

/-- At t = 0 every branch of resolveSpring evaluates to the origin: the
underdamped and critical branches because sin and the linear term vanish and
the exponential and cos are one, the overdamped branch because sinh vanishes
and the damped frequency cancels. -/
lemma resolveSpring_zero (stiffness damping mass origin target
    initialVelocity : ℝ) (hs : 0 < stiffness) (hm : 0 < mass) :
    resolveSpring stiffness damping mass origin target initialVelocity 0 =
      origin := by
  simp only [resolveSpring]
  by_cases h1 : damping / (2 * Real.sqrt (stiffness * mass)) < 1
  · rw [if_pos h1]
    simp [Real.exp_zero, Real.sin_zero, Real.cos_zero, mul_zero]
  · rw [if_neg h1]
    by_cases h2 : damping / (2 * Real.sqrt (stiffness * mass)) = 1
    · rw [if_pos h2]
      simp [Real.exp_zero, mul_zero]
    · rw [if_neg h2]
      have hr : 1 < damping / (2 * Real.sqrt (stiffness * mass)) :=
        lt_of_le_of_ne (not_lt.mp h1) (Ne.symm h2)
      have hw : 0 < millisecondsToSeconds (Real.sqrt (stiffness / mass)) := by
        rw [millisecondsToSeconds]
        have : 0 < Real.sqrt (stiffness / mass) :=
          Real.sqrt_pos.mpr (div_pos hs hm)
        linarith
      have hsq : 0 < Real.sqrt
          (damping / (2 * Real.sqrt (stiffness * mass)) *
              (damping / (2 * Real.sqrt (stiffness * mass))) - 1) := by
        apply Real.sqrt_pos.mpr
        nlinarith
      have hdaf :
          millisecondsToSeconds (Real.sqrt (stiffness / mass)) *
              Real.sqrt
                (damping / (2 * Real.sqrt (stiffness * mass)) *
                    (damping / (2 * Real.sqrt (stiffness * mass))) - 1) ≠ 0 :=
        ne_of_gt (mul_pos hw hsq)
      simp only [mul_zero, min_eq_left (by norm_num : (0 : ℝ) ≤ 300),
        Real.sinh_zero, Real.cosh_zero, Real.exp_zero, mul_one, zero_add,
        one_mul]
      rw [mul_comm
          (millisecondsToSeconds (Real.sqrt (stiffness / mass)) *
            Real.sqrt
              (damping / (2 * Real.sqrt (stiffness * mass)) *
                  (damping / (2 * Real.sqrt (stiffness * mass))) - 1))
          (target - origin),
        mul_div_assoc, div_self hdaf, mul_one]
      ring

/-- C4: for every spring with positive stiffness and mass and nonnegative
damping, and every keyframe pair, the trajectory satisfies position(0) =
origin exactly, in each of the three damping regimes. -/
theorem position_zero_eq_origin (stiffness damping mass origin target
    initialVelocity : ℝ) (hs : 0 < stiffness) (hm : 0 < mass)
    (_hd : 0 ≤ damping) :
    resolveSpring stiffness damping mass origin target initialVelocity 0 =
      origin :=
  resolveSpring_zero stiffness damping mass origin target initialVelocity hs hm

/-- An undamped physics spring: stiffness 1, damping 0, mass 1, keyframes 0 to
1. Its trajectory oscillates forever between 0 and 2. -/
def oC6 : SpringInput :=
  ⟨some 1, some 0, some 1, none, none, none, none, none, none, [0, 1]⟩

/-- The undamped spring resolves by passing the physics constants through. -/
lemma oC6_resolved : springResolved oC6 = ⟨0, 1, 0, 1, none, false⟩ := by
  simp [springResolved, oC6, getSpringOptions, isSpringTypePhysics,
    millisecondsToSeconds]

/-- The undamped spring is not duration-resolved. -/
lemma oC6_iRFD : (springResolved oC6).isResolvedFromDuration = false := by
  rw [oC6_resolved]

/-- The undamped spring has damping ratio zero. -/
lemma oC6_ratio : springDampingRatio oC6 = 0 := by
  rw [springDampingRatio, oC6_resolved]
  simp

/-- The undamped spring's trajectory is 1 - cos(t/1000). -/
lemma oC6_pos (t : ℝ) : springPosition oC6 t = 1 - Real.cos (t / 1000) := by
  have hsr : springResolved oC6 = ⟨0, 1, 0, 1, none, false⟩ := oC6_resolved
  rw [springPosition, hsr]
  show resolveSpring 1 0 1 0 1 0 t = 1 - Real.cos (t / 1000)
  simp [resolveSpring, calcAngularFreq, millisecondsToSeconds]
  ring_nf

/-- The undamped spring uses the granular rest-speed threshold. -/
lemma oC6_restSpeed : restSpeedOf oC6 = 0.01 := by
  simp [restSpeedOf, springInitialDelta, springOrigin, springTarget, oC6,
    springDefaults]

/-- The undamped spring uses the granular rest-delta threshold. -/
lemma oC6_restDelta : restDeltaOf oC6 = 0.005 := by
  simp [restDeltaOf, springInitialDelta, springOrigin, springTarget, oC6,
    springDefaults]

/-- The undamped spring's trajectory touches the target exactly at a quarter
period. -/
lemma oC6_pos_quarter : springPosition oC6 (500 * Real.pi) = 1 := by
  rw [oC6_pos]
  rw [show (500 * Real.pi) / 1000 = Real.pi / 2 by ring, Real.cos_pi_div_two]
  norm_num

/-- Five milliseconds before the quarter period the trajectory is one minus
sin(1/200) from the origin side. -/
lemma oC6_pos_quarter_minus : springPosition oC6 (500 * Real.pi - 5) =
    1 - Real.sin (1 / 200) := by
  rw [oC6_pos]
  rw [show (500 * Real.pi - 5) / 1000 = Real.pi / 2 - 1 / 200 by ring,
    Real.cos_pi_div_two_sub]

/-- At a half period the undamped trajectory overshoots to 2. -/
lemma oC6_pos_half : springPosition oC6 (1000 * Real.pi) = 2 := by
  rw [oC6_pos]
  rw [show (1000 * Real.pi) / 1000 = Real.pi by ring, Real.cos_pi]
  norm_num

/-- The settlement velocity of the undamped spring at the quarter period is
sin(1/200)/5. -/
lemma oC6_vel_quarter : springVelocity oC6 (500 * Real.pi) =
    Real.sin (1 / 200) / 5 := by
  have hpi := Real.pi_gt_three
  rw [springVelocity, if_pos (by rw [oC6_ratio]; norm_num),
    if_neg (by nlinarith : ¬500 * Real.pi = 0)]
  simp only [calcGeneratorVelocity]
  rw [max_eq_left (by nlinarith : (0 : ℝ) ≤ 500 * Real.pi - 5)]
  rw [oC6_pos_quarter, oC6_pos_quarter_minus]
  have h5 : 500 * Real.pi - (500 * Real.pi - 5) = 5 := by ring
  rw [h5]
  ring

/-- C6 (counterexample): for the undamped threshold-settled spring, done holds
at t = 500 pi (the trajectory touches the target with negligible velocity) but
fails at the later time t = 1000 pi (full overshoot to 2), so done is not
monotonic in the query time. -/
theorem done_not_monotonic :
    springDone oC6 (500 * Real.pi) ∧ 500 * Real.pi ≤ 1000 * Real.pi ∧
      ¬springDone oC6 (1000 * Real.pi) := by
  have hpi := Real.pi_gt_three
  have hsin_nonneg : 0 ≤ Real.sin (1 / 200) :=
    Real.sin_nonneg_of_nonneg_of_le_pi (by norm_num) (by nlinarith)
  have hsin_lt : Real.sin (1 / 200) < 1 / 200 := Real.sin_lt (by norm_num)
  refine ⟨?_, by nlinarith, ?_⟩
  · rw [springDone]
    rw [if_neg (by rw [oC6_iRFD]; simp)]
    constructor
    · rw [oC6_vel_quarter, oC6_restSpeed,
        abs_of_nonneg (by linarith : (0 : ℝ) ≤ Real.sin (1 / 200) / 5)]
      norm_num
      linarith
    · rw [oC6_pos_quarter, oC6_restDelta,
        show springTarget oC6 = 1 from rfl]
      norm_num
  · intro h
    rw [springDone, if_neg (by rw [oC6_iRFD]; simp)] at h
    obtain ⟨-, h2⟩ := h
    rw [oC6_pos_half, oC6_restDelta, show springTarget oC6 = 1 from rfl] at h2
    norm_num at h2

/-- C8 (counterexample): for the underdamped spring oC6 at query time t = 2,
the settlement velocity is the difference quotient back to time 0 divided by
2, not the claimed backward difference over a 5ms window. -/
theorem velocity_not_backward_difference_small_t :
    springVelocity oC6 2 ≠
      (springPosition oC6 2 - springPosition oC6 (2 - 5)) / 5 := by
  have hpi := Real.pi_gt_three
  have h2 : springPosition oC6 2 = 1 - Real.cos (1 / 500) := by
    rw [oC6_pos]
    norm_num
  have h0 : springPosition oC6 0 = 0 := by
    rw [oC6_pos]
    norm_num
  have hm3 : springPosition oC6 (2 - 5) = 1 - Real.cos (3 / 1000) := by
    rw [oC6_pos]
    rw [show ((2 : ℝ) - 5) / 1000 = -(3 / 1000) by norm_num, Real.cos_neg]
  have hv : springVelocity oC6 2 = (1 - Real.cos (1 / 500)) / 2 := by
    rw [springVelocity, if_pos (by rw [oC6_ratio]; norm_num),
      if_neg (by norm_num : ¬(2 : ℝ) = 0)]
    simp only [calcGeneratorVelocity]
    rw [max_eq_right (by norm_num : (2 : ℝ) - 5 ≤ 0), h0, h2]
    norm_num
  have hclt : Real.cos (3 / 1000) < Real.cos (1 / 500) := by
    apply Real.cos_lt_cos_of_nonneg_of_le_pi (by norm_num) (by nlinarith)
    norm_num
  have hc1 : Real.cos (1 / 500) < 1 := by
    have h := Real.cos_lt_cos_of_nonneg_of_le_pi (le_refl 0) (by nlinarith)
      (by norm_num : (0 : ℝ) < 1 / 500)
    rwa [Real.cos_zero] at h
  rw [hv, h2, hm3]
  intro heq
  nlinarith

/-- C8 (amended): for every underdamped spring and every query time t at least
5ms, the settlement velocity equals the backward finite difference
(position(t) - position(t - 5)) / 5; for 0 < t < 5 the source instead divides
the difference back to time 0 by t itself. -/
theorem velocity_backward_difference (o : SpringInput) (t : ℝ)
    (hu : springDampingRatio o < 1) (ht : 5 ≤ t) :
    springVelocity o t =
      (springPosition o t - springPosition o (t - 5)) / 5 := by
  rw [springVelocity, if_pos hu,
    if_neg (by intro h; rw [h] at ht; norm_num at ht)]
  simp only [calcGeneratorVelocity]
  rw [max_eq_left (by linarith : (0 : ℝ) ≤ t - 5)]
  congr 1
  ring

/-- C8 (witness): the backward difference formula for the undamped spring at
t = 7. -/
theorem velocity_backward_difference_witness :
    springDampingRatio oC6 < 1 ∧ (5 : ℝ) ≤ 7 ∧
      springVelocity oC6 7 =
        (springPosition oC6 7 - springPosition oC6 (7 - 5)) / 5 := by
  have h1 : springDampingRatio oC6 < 1 := by
    rw [oC6_ratio]
    norm_num
  exact ⟨h1, by norm_num, velocity_backward_difference oC6 7 h1 (by norm_num)⟩

/-- Evaluating the trajectory pipeline at time zero yields the origin, given
positive resolved stiffness and mass. -/
lemma springPosition_zero (o : SpringInput)
    (hs : 0 < (springResolved o).stiffness)
    (hm : 0 < (springResolved o).mass) :
    springPosition o 0 = springOrigin o :=
  resolveSpring_zero _ _ _ _ _ _ hs hm

/-- The sample list always has 30 entries. -/
lemma springSamples_length (o : SpringInput) (D : ℝ) :
    (springSamples o D).length = 30 := by
  simp only [springSamples, generateLinearEasing, List.length_map,
    List.length_range]

/-- Each sample reads the reported value at the evenly spaced query time. -/
lemma springSamples_getD (o : SpringInput) (D : ℝ) (i : ℕ) (hi : i < 30) :
    (springSamples o D).getD i 0 = springValue o (D * (i / 29)) := by
  have hlt : i < (springSamples o D).length := by
    rw [springSamples_length]
    exact hi
  rw [List.getD_eq_getElem _ _ hlt]
  simp only [springSamples, generateLinearEasing, List.getElem_map,
    List.getElem_range]
  norm_num

/-- The first sample is the value reported at time zero. -/
lemma springSamples_at_zero (o : SpringInput) (D : ℝ) :
    (springSamples o D).getD 0 0 = springValue o 0 := by
  rw [springSamples_getD o D 0 (by norm_num)]
  norm_num

/-- A 100/10/1 physics spring over the tiny keyframe range 0 to 0.004, which
is already inside the granular rest-delta threshold at time zero. -/
def oC7 : SpringInput :=
  ⟨some 100, some 10, some 1, none, none, none, none, none, none, [0, 0.004]⟩

/-- The tiny-range spring resolves by passing the physics constants through. -/
lemma oC7_resolved : springResolved oC7 = ⟨0, 100, 10, 1, none, false⟩ := by
  simp [springResolved, oC7, getSpringOptions, isSpringTypePhysics,
    millisecondsToSeconds]

/-- The square root of one hundred. -/
lemma sqrt_hundred : Real.sqrt 100 = 10 := by
  rw [show (100 : ℝ) = 10 ^ 2 by norm_num]
  exact Real.sqrt_sq (by norm_num)

/-- The tiny-range spring is underdamped with ratio one half. -/
lemma oC7_ratio : springDampingRatio oC7 = 1 / 2 := by
  rw [springDampingRatio, oC7_resolved]
  simp only
  rw [mul_one, sqrt_hundred]
  norm_num

/-- The tiny keyframe range spans 0.004. -/
lemma oC7_delta : springInitialDelta oC7 = 0.004 := by
  rw [springInitialDelta, show springTarget oC7 = 0.004 from rfl,
    show springOrigin oC7 = 0 from rfl]
  norm_num

/-- The tiny-range spring uses the granular rest-speed threshold. -/
lemma oC7_restSpeed : restSpeedOf oC7 = 0.01 := by
  rw [restSpeedOf, oC7_delta, show oC7.restSpeed = none from rfl,
    abs_of_nonneg (by norm_num : (0 : ℝ) ≤ 0.004)]
  norm_num [springDefaults]

/-- The tiny-range spring uses the granular rest-delta threshold. -/
lemma oC7_restDelta : restDeltaOf oC7 = 0.005 := by
  rw [restDeltaOf, oC7_delta, show oC7.restDelta = none from rfl,
    abs_of_nonneg (by norm_num : (0 : ℝ) ≤ 0.004)]
  norm_num [springDefaults]

/-- The tiny-range spring reports done already at time zero: its initial
velocity is zero and its whole range is below the granular rest delta. -/
lemma oC7_done_zero : springDone oC7 0 := by
  rw [springDone, if_neg (by rw [oC7_resolved]; simp)]
  have hvel : springVelocity oC7 0 = 0 := by
    rw [springVelocity, if_pos (by rw [oC7_ratio]; norm_num), if_pos rfl,
      oC7_resolved]
    simp [secondsToMilliseconds]
  have hpos : springPosition oC7 0 = 0 := by
    have h := springPosition_zero oC7 (by rw [oC7_resolved]; norm_num)
      (by rw [oC7_resolved]; norm_num)
    rw [h]
    rfl
  refine ⟨?_, ?_⟩
  · rw [hvel, oC7_restSpeed, abs_zero]
    norm_num
  · rw [hpos, oC7_restDelta, show springTarget oC7 = 0.004 from rfl, sub_zero,
      abs_of_nonneg (by norm_num : (0 : ℝ) ≤ 0.004)]
    norm_num

/-- C7 (counterexample): for the tiny-range spring, which is settled at time
zero, the first of the 30 samples is the target 0.004, not the origin
position(0) = 0: the sampler reads the reported value, which snaps to the
target once done. -/
theorem sample_head_ne_origin :
    (springSamples oC7 100).getD 0 0 ≠ springOrigin oC7 := by
  rw [springSamples_at_zero, springValue, if_pos oC7_done_zero]
  rw [show springTarget oC7 = 0.004 from rfl,
    show springOrigin oC7 = 0 from rfl]
  norm_num

/-- C7 (amended): sampling at resolution 30 yields exactly 30 values with
sample[i] equal to the reported value at time D*i/29 (the analytic position,
except that it snaps to the target whenever the settlement test reports done);
sample[0] equals position(0) = origin whenever the spring is not already
settled at time zero (and resolved stiffness and mass are positive); sample[29]
is the reported value at D; and the formatted output is the comma-space-joined
string of the literal shape linear(v0, ..., v29). -/
theorem samples_spec (o : SpringInput) (D : ℝ) :
    (springSamples o D).length = 30 ∧
      (∀ i : ℕ, i < 30 →
        (springSamples o D).getD i 0 = springValue o (D * (i / 29))) ∧
      (¬springDone o 0 → 0 < (springResolved o).stiffness →
        0 < (springResolved o).mass →
        (springSamples o D).getD 0 0 = springOrigin o) ∧
      (springSamples o D).getD 29 0 = springValue o D ∧
      (∀ render : ℝ → String,
        springToString render o =
          "linear(" ++ String.intercalate ", "
            ((springSamples o
              (min (calcGeneratorDuration o) maxGeneratorDuration)).map render)
            ++ ")") := by
  refine ⟨springSamples_length o D, springSamples_getD o D, ?_, ?_, ?_⟩
  · intro hnd hs hm
    rw [springSamples_at_zero, springValue, if_neg hnd,
      springPosition_zero o hs hm]
  · rw [springSamples_getD o D 29 (by norm_num)]
    norm_num
  · intro render
    rfl

/-- C7 (witness): for the undamped spring, which is not settled at time zero,
there are exactly 30 samples and the first one is the origin. -/
theorem samples_spec_witness :
    (springSamples oC6 100).length = 30 ∧ ¬springDone oC6 0 ∧
      0 < (springResolved oC6).stiffness ∧ 0 < (springResolved oC6).mass ∧
      (springSamples oC6 100).getD 0 0 = springOrigin oC6 := by
  have hnd : ¬springDone oC6 0 := by
    intro h
    rw [springDone, if_neg (by rw [oC6_iRFD]; simp)] at h
    obtain ⟨-, h2⟩ := h
    have hp0 : springPosition oC6 0 = 0 := by
      rw [oC6_pos]
      norm_num
    rw [hp0, oC6_restDelta, show springTarget oC6 = 1 from rfl] at h2
    norm_num at h2
  have hs : 0 < (springResolved oC6).stiffness := by
    rw [oC6_resolved]
    norm_num
  have hm : 0 < (springResolved oC6).mass := by
    rw [oC6_resolved]
    norm_num
  exact ⟨(samples_spec oC6 100).1, hnd, hs, hm,
    (samples_spec oC6 100).2.2.1 hnd hs hm⟩

/-- C4 (witness): the default spring with keyframes 0 to 1 starts exactly at
its origin. -/
theorem position_zero_eq_origin_witness :
    (0 : ℝ) < 100 ∧ (0 : ℝ) < 1 ∧ (0 : ℝ) ≤ 10 ∧
      resolveSpring 100 10 1 0 1 0 0 = 0 :=
  ⟨by norm_num, by norm_num, by norm_num,
    position_zero_eq_origin 100 10 1 0 1 0 (by norm_num) (by norm_num)
      (by norm_num)⟩

/-- The shape function of the critically damped trajectory with zero initial
velocity: position(t) = target - (target - origin) * critG w t. -/
def critG (w t : ℝ) : ℝ := Real.exp (-(w * t)) * (1 + w * t)

/-- With damping ratio one and zero initial velocity the trajectory factors
through critG. -/
lemma resolveSpring_eq_critical (s d m o tg : ℝ)
    (hr : d / (2 * Real.sqrt (s * m)) = 1) (t : ℝ) :
    resolveSpring s d m o tg 0 t =
      tg - (tg - o) * critG (millisecondsToSeconds (Real.sqrt (s / m))) t := by
  simp only [resolveSpring]
  rw [if_neg (by rw [hr]; exact lt_irrefl 1), if_pos hr, critG]
  ring_nf

/-- critG starts at one. -/
lemma critG_zero (w : ℝ) : critG w 0 = 1 := by
  simp [critG]

/-- critG is positive on nonnegative times for nonnegative rates. -/
lemma critG_pos {w t : ℝ} (hw : 0 ≤ w) (ht : 0 ≤ t) : 0 < critG w t := by
  rw [critG]
  have := Real.exp_pos (-(w * t))
  nlinarith [mul_nonneg hw ht]

/-- critG never exceeds one. -/
lemma critG_le_one (w t : ℝ) : critG w t ≤ 1 := by
  rw [critG]
  have h1 : w * t + 1 ≤ Real.exp (w * t) := Real.add_one_le_exp (w * t)
  have h2 : Real.exp (-(w * t)) * Real.exp (w * t) = 1 := by
    rw [← Real.exp_add]
    simp
  have h3 : 0 < Real.exp (-(w * t)) := Real.exp_pos _
  nlinarith

/-- critG decays as time advances. -/
lemma critG_antitone {w t1 t2 : ℝ} (hw : 0 ≤ w) (h1 : 0 ≤ t1)
    (h12 : t1 ≤ t2) : critG w t2 ≤ critG w t1 := by
  have hsplit : Real.exp (-(w * t2)) =
      Real.exp (-(w * t1)) * Real.exp (-(w * (t2 - t1))) := by
    rw [← Real.exp_add]
    ring_nf
  have hE1pos : 0 < Real.exp (-(w * t1)) := Real.exp_pos _
  have hEupos : 0 < Real.exp (-(w * (t2 - t1))) := Real.exp_pos _
  have hF : Real.exp (-(w * (t2 - t1))) * Real.exp (w * (t2 - t1)) = 1 := by
    rw [← Real.exp_add]
    simp
  have hFe : w * (t2 - t1) + 1 ≤ Real.exp (w * (t2 - t1)) :=
    Real.add_one_le_exp _
  have hEu1 : Real.exp (-(w * (t2 - t1))) ≤ 1 := by
    calc Real.exp (-(w * (t2 - t1))) ≤ Real.exp 0 :=
          Real.exp_le_exp.mpr (by nlinarith)
      _ = 1 := Real.exp_zero
  have hA : Real.exp (-(w * (t2 - t1))) * (1 + w * (t2 - t1)) ≤ 1 := by
    nlinarith
  have hB : Real.exp (-(w * (t2 - t1))) * (w * t1) ≤ w * t1 :=
    mul_le_of_le_one_left (mul_nonneg hw h1) hEu1
  have hkey : Real.exp (-(w * (t2 - t1))) * (1 + w * t2) ≤ 1 + w * t1 := by
    nlinarith
  rw [critG, critG, hsplit]
  nlinarith

/-- The shape function of the overdamped trajectory with zero initial
velocity, including the 300-unit clamp of the hyperbolic argument:
position(t) = target - (target - origin) * overG a b t, where a is the decay
rate and b the damped angular frequency. -/
def overG (a b t : ℝ) : ℝ :=
  Real.exp (-(a * t)) *
      (a * Real.sinh (min (b * t) 300) + b * Real.cosh (min (b * t) 300)) / b

/-- The unclamped overdamped shape function, written as a combination of two
decaying exponentials. -/
def overGu (a b t : ℝ) : ℝ :=
  ((a + b) * Real.exp (-((a - b) * t)) + (b - a) * Real.exp (-((a + b) * t))) /
    (2 * b)

/-- With damping ratio above one and zero initial velocity the trajectory
factors through overG. -/
lemma resolveSpring_eq_over (s d m o tg : ℝ)
    (hr : 1 < d / (2 * Real.sqrt (s * m))) (t : ℝ) :
    resolveSpring s d m o tg 0 t =
      tg - (tg - o) *
        overG (d / (2 * Real.sqrt (s * m)) *
            millisecondsToSeconds (Real.sqrt (s / m)))
          (millisecondsToSeconds (Real.sqrt (s / m)) *
            Real.sqrt (d / (2 * Real.sqrt (s * m)) *
              (d / (2 * Real.sqrt (s * m))) - 1)) t := by
  simp only [resolveSpring]
  rw [if_neg (by linarith), if_neg (by linarith), overG]
  ring_nf

/-- Below the clamp the overdamped shape function is the two-exponential
combination. -/
lemma overG_eq_overGu {a b t : ℝ} (hb : 0 < b) (hbt : b * t ≤ 300) :
    overG a b t = overGu a b t := by
  have e1 : Real.exp (-(a * t)) * Real.exp (b * t) =
      Real.exp (-((a - b) * t)) := by
    rw [← Real.exp_add]
    ring_nf
  have e2 : Real.exp (-(a * t)) * Real.exp (-(b * t)) =
      Real.exp (-((a + b) * t)) := by
    rw [← Real.exp_add]
    ring_nf
  rw [overG, min_eq_left hbt, Real.sinh_eq, Real.cosh_eq, overGu, ← e1, ← e2]
  field_simp
  ring

/-- The derivative of the unclamped overdamped shape function. -/
lemma overGu_hasDerivAt (a b t : ℝ) :
    HasDerivAt (overGu a b)
      (((a + b) * (Real.exp (-((a - b) * t)) * (-(a - b))) +
          (b - a) * (Real.exp (-((a + b) * t)) * (-(a + b)))) / (2 * b)) t := by
  have hlin1 : HasDerivAt (fun u : ℝ => -((a - b) * u)) (-((a - b) * 1)) t :=
    ((hasDerivAt_id t).const_mul (a - b)).neg
  have hlin2 : HasDerivAt (fun u : ℝ => -((a + b) * u)) (-((a + b) * 1)) t :=
    ((hasDerivAt_id t).const_mul (a + b)).neg
  have h1 : HasDerivAt (fun u : ℝ => Real.exp (-((a - b) * u)))
      (Real.exp (-((a - b) * t)) * (-(a - b))) t := by
    simpa using hlin1.exp
  have h2 : HasDerivAt (fun u : ℝ => Real.exp (-((a + b) * u)))
      (Real.exp (-((a + b) * t)) * (-(a + b))) t := by
    simpa using hlin2.exp
  exact ((h1.const_mul (a + b)).add (h2.const_mul (b - a))).div_const (2 * b)

/-- The unclamped overdamped shape function decays on nonnegative times. -/
lemma overGu_antitone {a b t1 t2 : ℝ} (hb : 0 < b) (hba : b < a)
    (h1 : 0 ≤ t1) (h12 : t1 ≤ t2) : overGu a b t2 ≤ overGu a b t1 := by
  have hanti : AntitoneOn (overGu a b) (Set.Ici 0) := by
    apply antitoneOn_of_deriv_nonpos (convex_Ici 0)
    · exact fun x _ => ((overGu_hasDerivAt a b x).continuousAt).continuousWithinAt
    · exact fun x _ => ((overGu_hasDerivAt a b x).differentiableAt).differentiableWithinAt
    · intro x hx
      rw [interior_Ici] at hx
      have hx0 : 0 < x := hx
      rw [(overGu_hasDerivAt a b x).deriv]
      have hexp : Real.exp (-((a + b) * x)) ≤ Real.exp (-((a - b) * x)) :=
        Real.exp_le_exp.mpr (by nlinarith)
      have hnum : (a + b) * (Real.exp (-((a - b) * x)) * (-(a - b))) +
          (b - a) * (Real.exp (-((a + b) * x)) * (-(a + b))) ≤ 0 := by
        nlinarith [mul_nonneg (by linarith : (0 : ℝ) ≤ a + b)
          (sub_nonneg.mpr hexp)]
      have hden : (0 : ℝ) < 2 * b := by linarith
      exact div_nonpos_iff.mpr (Or.inr ⟨hnum, by linarith⟩)
  exact hanti (Set.mem_Ici.mpr h1) (Set.mem_Ici.mpr (le_trans h1 h12)) h12

/-- The unclamped overdamped shape function starts at one. -/
lemma overGu_zero {a b : ℝ} (hb : b ≠ 0) : overGu a b 0 = 1 := by
  rw [overGu]
  simp [Real.exp_zero]
  field_simp
  ring

/-- The unclamped overdamped shape function is positive on nonnegative
times. -/
lemma overGu_pos {a b t : ℝ} (hb : 0 < b) (hba : b < a) (ht : 0 ≤ t) :
    0 < overGu a b t := by
  rw [overGu]
  apply div_pos ?_ (by linarith)
  have hE12 : Real.exp (-((a + b) * t)) ≤ Real.exp (-((a - b) * t)) :=
    Real.exp_le_exp.mpr (by nlinarith)
  have hE2pos : 0 < Real.exp (-((a + b) * t)) := Real.exp_pos _
  nlinarith [mul_nonneg (by linarith : (0 : ℝ) ≤ a + b) (sub_nonneg.mpr hE12)]

/-- Past the clamp the overdamped shape function is a decaying exponential
times a positive constant. -/
lemma overG_clamped {a b : ℝ} (t : ℝ) (hbt : 300 ≤ b * t) :
    overG a b t =
      Real.exp (-(a * t)) * (a * Real.sinh 300 + b * Real.cosh 300) / b := by
  rw [overG, min_eq_right hbt]

/-- The overdamped shape function starts at one. -/
lemma overG_zero {a b : ℝ} (hb : b ≠ 0) : overG a b 0 = 1 := by
  rw [overG]
  simp only [mul_zero, min_eq_left (by norm_num : (0 : ℝ) ≤ 300)]
  simp [Real.sinh_zero, Real.cosh_zero]
  field_simp

/-- The overdamped shape function decays on nonnegative times, also across
the clamp boundary. -/
lemma overG_antitone {a b t1 t2 : ℝ} (hb : 0 < b) (hba : b < a)
    (h1 : 0 ≤ t1) (h12 : t1 ≤ t2) : overG a b t2 ≤ overG a b t1 := by
  have hK : 0 ≤ a * Real.sinh 300 + b * Real.cosh 300 := by
    have hs : 0 < Real.sinh (300 : ℝ) :=
      Real.sinh_pos_iff.mpr (by norm_num)
    have hc : 0 < Real.cosh (300 : ℝ) := Real.cosh_pos 300
    nlinarith
  by_cases hc2 : b * t2 ≤ 300
  · have hc1 : b * t1 ≤ 300 := le_trans (by nlinarith) hc2
    rw [overG_eq_overGu hb hc1, overG_eq_overGu hb hc2]
    exact overGu_antitone hb hba h1 h12
  · push_neg at hc2
    by_cases hc1 : b * t1 ≤ 300
    · have hs2 : 300 / b ≤ t2 := by
        rw [div_le_iff hb]
        nlinarith
      have hs1 : t1 ≤ 300 / b := by
        rw [le_div_iff hb]
        nlinarith
      have hbs : b * (300 / b) = 300 := by
        field_simp
      calc overG a b t2 ≤ overG a b (300 / b) := by
            rw [overG_clamped t2 (le_of_lt hc2), overG_clamped (300 / b) (by rw [hbs])]
            have hE : Real.exp (-(a * t2)) ≤ Real.exp (-(a * (300 / b))) :=
              Real.exp_le_exp.mpr (by nlinarith)
            exact (div_le_div_right hb).mpr (mul_le_mul_of_nonneg_right hE hK)
        _ = overGu a b (300 / b) := overG_eq_overGu hb (by rw [hbs])
        _ ≤ overGu a b t1 := overGu_antitone hb hba h1 hs1
        _ = overG a b t1 := (overG_eq_overGu hb hc1).symm
    · push_neg at hc1
      rw [overG_clamped t1 (le_of_lt hc1), overG_clamped t2 (le_of_lt hc2)]
      have hE : Real.exp (-(a * t2)) ≤ Real.exp (-(a * t1)) :=
        Real.exp_le_exp.mpr (by nlinarith)
      exact (div_le_div_right hb).mpr (mul_le_mul_of_nonneg_right hE hK)

/-- The overdamped shape function is positive on nonnegative times. -/
lemma overG_pos {a b t : ℝ} (hb : 0 < b) (hba : b < a) (ht : 0 ≤ t) :
    0 < overG a b t := by
  by_cases hc : b * t ≤ 300
  · rw [overG_eq_overGu hb hc]
    exact overGu_pos hb hba ht
  · push_neg at hc
    rw [overG_clamped t (le_of_lt hc)]
    have hsh : 0 < Real.sinh (300 : ℝ) := Real.sinh_pos_iff.mpr (by norm_num)
    have hch : 0 < Real.cosh (300 : ℝ) := Real.cosh_pos 300
    have hK : 0 < a * Real.sinh 300 + b * Real.cosh 300 := by nlinarith
    exact div_pos (mul_pos (Real.exp_pos _) hK) hb

/-- The overdamped shape function never exceeds one on nonnegative times. -/
lemma overG_le_one {a b t : ℝ} (hb : 0 < b) (hba : b < a) (ht : 0 ≤ t) :
    overG a b t ≤ 1 := by
  have h := overG_antitone hb hba (le_refl (0 : ℝ)) ht
  rwa [overG_zero (ne_of_gt hb)] at h

/-- A trajectory of the form target - delta * G t with G positive, bounded by
one, starting at one and decaying stays between origin and target and
approaches the target monotonically. -/
lemma bounds_of_G (o tg : ℝ) (G pos : ℝ → ℝ)
    (hpos : ∀ t, pos t = tg - (tg - o) * G t)
    (hG1 : ∀ t, 0 ≤ t → 0 < G t)
    (hG2 : ∀ t, 0 ≤ t → G t ≤ 1)
    (hGa : ∀ t1 t2, 0 ≤ t1 → t1 ≤ t2 → G t2 ≤ G t1) :
    (∀ t, 0 ≤ t → min o tg ≤ pos t ∧ pos t ≤ max o tg) ∧
      ∀ t1 t2, 0 ≤ t1 → t1 ≤ t2 → |tg - pos t2| ≤ |tg - pos t1| := by
  constructor
  · intro t ht
    rw [hpos]
    rcases le_total o tg with hot | hot
    · rw [min_eq_left hot, max_eq_right hot]
      constructor
      · nlinarith [hG2 t ht, hG1 t ht]
      · nlinarith [hG1 t ht]
    · rw [min_eq_right hot, max_eq_left hot]
      constructor
      · nlinarith [hG1 t ht]
      · nlinarith [hG2 t ht, hG1 t ht]
  · intro t1 t2 h1 h12
    have h2 : 0 ≤ t2 := le_trans h1 h12
    rw [hpos, hpos, show tg - (tg - (tg - o) * G t2) = (tg - o) * G t2 by ring,
      show tg - (tg - (tg - o) * G t1) = (tg - o) * G t1 by ring, abs_mul,
      abs_mul]
    apply mul_le_mul_of_nonneg_left ?_ (abs_nonneg _)
    rw [abs_of_pos (hG1 t2 h2), abs_of_pos (hG1 t1 h1)]
    exact hGa t1 t2 h1 h12

/-- C9: for every spring with positive stiffness and mass whose damping ratio
is at least one (critically damped or overdamped) and zero initial velocity,
the trajectory stays between origin and target for all nonnegative times
(never exceeding the target) and its distance to the target is monotonically
nonincreasing. -/
theorem no_overshoot (stiffness damping mass origin target : ℝ)
    (hs : 0 < stiffness) (hm : 0 < mass)
    (hr : 1 ≤ damping / (2 * Real.sqrt (stiffness * mass))) :
    (∀ t, 0 ≤ t →
      min origin target ≤
          resolveSpring stiffness damping mass origin target 0 t ∧
        resolveSpring stiffness damping mass origin target 0 t ≤
          max origin target) ∧
      ∀ t1 t2, 0 ≤ t1 → t1 ≤ t2 →
        |target - resolveSpring stiffness damping mass origin target 0 t2| ≤
          |target - resolveSpring stiffness damping mass origin target 0 t1| := by
  have hw : 0 < millisecondsToSeconds (Real.sqrt (stiffness / mass)) := by
    rw [millisecondsToSeconds]
    have h := Real.sqrt_pos.mpr (div_pos hs hm)
    linarith
  rcases eq_or_lt_of_le hr with heq | hlt
  · exact bounds_of_G origin target
      (critG (millisecondsToSeconds (Real.sqrt (stiffness / mass)))) _
      (resolveSpring_eq_critical stiffness damping mass origin target heq.symm)
      (fun t ht => critG_pos hw.le ht)
      (fun t _ => critG_le_one _ t)
      (fun t1 t2 h1 h12 => critG_antitone hw.le h1 h12)
  · have hb : 0 < millisecondsToSeconds (Real.sqrt (stiffness / mass)) *
        Real.sqrt (damping / (2 * Real.sqrt (stiffness * mass)) *
          (damping / (2 * Real.sqrt (stiffness * mass))) - 1) :=
      mul_pos hw (Real.sqrt_pos.mpr (by nlinarith))
    have hba : millisecondsToSeconds (Real.sqrt (stiffness / mass)) *
        Real.sqrt (damping / (2 * Real.sqrt (stiffness * mass)) *
          (damping / (2 * Real.sqrt (stiffness * mass))) - 1) <
        damping / (2 * Real.sqrt (stiffness * mass)) *
          millisecondsToSeconds (Real.sqrt (stiffness / mass)) := by
      have hsq : Real.sqrt (damping / (2 * Real.sqrt (stiffness * mass)) *
          (damping / (2 * Real.sqrt (stiffness * mass))) - 1) <
          damping / (2 * Real.sqrt (stiffness * mass)) := by
        have h0 : (0 : ℝ) ≤ damping / (2 * Real.sqrt (stiffness * mass)) *
            (damping / (2 * Real.sqrt (stiffness * mass))) - 1 := by nlinarith
        have h := Real.sqrt_lt_sqrt h0
          (by nlinarith : damping / (2 * Real.sqrt (stiffness * mass)) *
            (damping / (2 * Real.sqrt (stiffness * mass))) - 1 <
            damping / (2 * Real.sqrt (stiffness * mass)) *
              (damping / (2 * Real.sqrt (stiffness * mass))))
        rwa [Real.sqrt_mul_self (by linarith)] at h
      calc millisecondsToSeconds (Real.sqrt (stiffness / mass)) *
            Real.sqrt (damping / (2 * Real.sqrt (stiffness * mass)) *
              (damping / (2 * Real.sqrt (stiffness * mass))) - 1) <
          millisecondsToSeconds (Real.sqrt (stiffness / mass)) *
            (damping / (2 * Real.sqrt (stiffness * mass))) :=
            (mul_lt_mul_left hw).mpr hsq
        _ = damping / (2 * Real.sqrt (stiffness * mass)) *
            millisecondsToSeconds (Real.sqrt (stiffness / mass)) := mul_comm _ _
    exact bounds_of_G origin target
      (overG (damping / (2 * Real.sqrt (stiffness * mass)) *
          millisecondsToSeconds (Real.sqrt (stiffness / mass)))
        (millisecondsToSeconds (Real.sqrt (stiffness / mass)) *
          Real.sqrt (damping / (2 * Real.sqrt (stiffness * mass)) *
            (damping / (2 * Real.sqrt (stiffness * mass))) - 1))) _
      (resolveSpring_eq_over stiffness damping mass origin target hlt)
      (fun t ht => overG_pos hb hba ht)
      (fun t ht => overG_le_one hb hba ht)
      (fun t1 t2 h1 h12 => overG_antitone hb hba h1 h12)

/-- C9 (witness): the overdamped spring stiffness 100, damping 30, mass 1
(ratio 1.5) with keyframes 0 to 1 stays within the keyframe range at t = 7
and is no farther from the target at t = 9 than at t = 7. -/
theorem no_overshoot_witness :
    (0 : ℝ) < 100 ∧ (0 : ℝ) < 1 ∧
      1 ≤ (30 : ℝ) / (2 * Real.sqrt (100 * 1)) ∧
      (min 0 1 ≤ resolveSpring 100 30 1 0 1 0 7 ∧
        resolveSpring 100 30 1 0 1 0 7 ≤ max 0 1) ∧
      |1 - resolveSpring 100 30 1 0 1 0 9| ≤
        |1 - resolveSpring 100 30 1 0 1 0 7| := by
  have hr : 1 ≤ (30 : ℝ) / (2 * Real.sqrt (100 * 1)) := by
    rw [mul_one, sqrt_hundred]
    norm_num
  have h := no_overshoot 100 30 1 0 1 (by norm_num) (by norm_num) hr
  exact ⟨by norm_num, by norm_num, hr, h.1 7 (by norm_num),
    h.2 7 9 (by norm_num) (by norm_num)⟩

end

end SpringGen
